import Mathlib

/-! static/js/main.js: alert dismisser and dependent dropdown loader

A shallow embedding of the page script.  The script is one `DOMContentLoaded`
callback that

* schedules, for every `.alert` element found at load, a 3000ms timer whose
  callback fades the element and schedules its removal 500ms later;
* registers a `change` listener on `#constellation_id` (when that element
  exists) which fetches `/satellites/by-constellation/<value>` and rebuilds the
  options of `#satellite_id1` and `#satellite_id2` from the JSON reply;
* dispatches one synthetic `change` when the parent already has a value.

The browser is modelled by explicit state passing: the DOM nodes the script
reads or writes, the timer queue under a virtual clock, the in-flight fetches,
and logs of issued requests, settled requests and uncaught errors.
-/

namespace Plotinus

/-! ## JSON values and the conversions the script applies to them -/

/-- A value produced by `response.json()`.  A number is given by its canonical
text, the string that `Number::toString` yields for it ("1" for 1, "1.5" for
1.5, "1152921504606847000" for 2^60, "1e+21" for 10^21): distinct numbers have
distinct texts, and the script does nothing with a number but convert it to a
string.  A text that is no number's text stands for no value the code can
receive; statements over all of `Json` range over those as well. -/
inductive Json where
  | null : Json
  | bool (b : Bool) : Json
  | num (text : String) : Json
  | str (s : String) : Json
  | arr (xs : List Json) : Json
  | obj (kvs : List (String × Json)) : Json

/-- Errors that end a callback: a rejected `fetch`, a rejected
`response.json()`, or a `TypeError` thrown inside the response handler. -/
inductive JSError where
  | fetchRejected : JSError
  | jsonRejected : JSError
  | typeError : JSError
  deriving DecidableEq, Repr

/-- The value of the own property `key` of a parsed object: the last
occurrence of the key wins, as in `JSON.parse`. -/
def lookupKey (key : String) : List (String × Json) → Option Json
  | [] => none
  | (k, v) :: rest =>
    match lookupKey key rest with
    | some later => some later
    | none => if k = key then some v else none

mutual
/-- ECMAScript `ToString` on a parsed JSON value.  An object is converted
through its `toString` property: a parsed object that has an own key
"toString" holds a value that cannot be called there, its `valueOf` yields no
primitive either, and the conversion throws a `TypeError`; any other parsed
object inherits `Object.prototype.toString`.  An array is converted by
`join`. -/
def Json.toJSString : Json → Except JSError String
  | .null => .ok "null"
  | .bool true => .ok "true"
  | .bool false => .ok "false"
  | .num text => .ok text
  | .str s => .ok s
  | .arr xs => Json.joinList xs
  | .obj kvs =>
    match lookupKey "toString" kvs with
    | some _ => .error .typeError
    | none => .ok "[object Object]"
/-- The text of `Array.prototype.join(",")`: `null` elements contribute the
empty string, every other element its `ToString`, which may throw. -/
def Json.joinList : List Json → Except JSError String
  | [] => .ok ""
  | x :: rest =>
    let first : Except JSError String := match x with
      | .null => .ok ""
      | y => Json.toJSString y
    match first with
    | .error e => .error e
    | .ok head =>
      match rest with
      | [] => .ok head
      | _ :: _ =>
        match Json.joinList rest with
        | .error e => .error e
        | .ok tail => .ok (head ++ "," ++ tail)
end

/-- Property read `sat.key` for a key that no prototype defines (`id`,
`satellite_id`): `none` is `undefined`; reading from `null` throws. -/
def getProp (sat : Json) (key : String) : Except JSError (Option Json) :=
  match sat with
  | .null => .error .typeError
  | .obj kvs => .ok (lookupKey key kvs)
  | _ => .ok none

/-- `ToString` of the result of a property read. -/
def propToString : Option Json → Except JSError String
  | none => .ok "undefined"
  | some v => v.toJSString

/-! ## DOM nodes -/

/-- An `<option>` element: its `value` and its text. -/
structure Opt where
  value : String
  text : String
  deriving DecidableEq, Repr

/-- Inline style of an alert element, as far as the script writes it. -/
structure AlertStyle where
  opacity : String
  transition : String
  deriving DecidableEq, Repr

/-- An alert node held by the script: its style and whether it is still in the document. -/
structure AlertNode where
  style : AlertStyle
  attached : Bool
  deriving DecidableEq, Repr

/-- The page as rendered by the server, at `DOMContentLoaded`. -/
structure Page where
  /-- the elements matching `.alert`, in document order -/
  alerts : List AlertStyle
  /-- the value of `#constellation_id`, when the element exists -/
  parent : Option String
  /-- the options of `#satellite_id1`, when the element exists -/
  sat1 : Option (List Opt)
  /-- the options of `#satellite_id2`, when the element exists -/
  sat2 : Option (List Opt)

/-! ## Timers and the run-time state -/

/-- The two timer callbacks of the script, closed over the alert at index `i`. -/
inductive Task where
  | fade (i : Nat) : Task
  | detach (i : Nat) : Task
  deriving DecidableEq, Repr

/-- A scheduled timer. -/
structure Timer where
  due : Nat
  task : Task
  deriving DecidableEq, Repr

/-- What a timer callback did, for the event log. -/
inductive AlertEvent where
  | opacitySet (i : Nat) : AlertEvent
  | removed (i : Nat) : AlertEvent
  deriving DecidableEq, Repr

/-- How an in-flight fetch settles. -/
inductive Reply where
  | networkFailure : Reply
  | invalidJson : Reply
  | json (v : Json) : Reply

/-- The state of the page and of the browser machinery the script uses. -/
structure World where
  /-- virtual clock, in ms since `DOMContentLoaded` -/
  now : Nat
  /-- alert nodes: those matched at load first, later additions after them -/
  alerts : List AlertNode
  parent : Option String
  sat1 : Option (List Opt)
  sat2 : Option (List Opt)
  /-- whether the `change` listener is registered on `#constellation_id` -/
  listening : Bool
  /-- timers in registration order -/
  timers : List Timer
  /-- URLs of in-flight fetches, oldest first -/
  pending : List String
  /-- log: every URL passed to `fetch`, oldest first -/
  requests : List String
  /-- log: settled fetches with their outcome, most recent first -/
  settled : List (String × Reply)
  /-- log: uncaught errors (unhandled rejections), oldest first -/
  errors : List JSError
  /-- log: timer callbacks with the time they ran, oldest first -/
  trace : List (Nat × AlertEvent)

/-! ## The response handler (lines 22-36) -/

/-- The option that `select.innerHTML = ...` leaves as the only child. -/
def placeholder : Opt := ⟨"", "-- 请选择卫星 --"⟩

/-- The body of `satellites.forEach(sat => ...)` up to `appendChild`, in
evaluation order: `option.value = sat.id` reads `sat.id` and converts it to a
string, then the template literal reads `sat.satellite_id` and converts it.
The result is the new option, or the error thrown on the way. -/
def makeOption (sat : Json) : Except JSError Opt :=
  match getProp sat "id" with
  | .error e => .error e
  | .ok idv =>
    match propToString idv with
    | .error e => .error e
    | .ok value =>
      match getProp sat "satellite_id" with
      | .error e => .error e
      | .ok label =>
        match propToString label with
        | .error e => .error e
        | .ok text => .ok ⟨value, "卫星 " ++ text⟩

/-- Inner loop `satellites.forEach`: appends one option per item to `opts`;
stops at the first item that throws, keeping what was appended so far. -/
def fillOptions : List Json → List Opt → List Opt × Option JSError
  | [], opts => (opts, none)
  | sat :: rest, opts =>
    match makeOption sat with
    | .error e => (opts, some e)
    | .ok o => fillOptions rest (opts ++ [o])

/-- The callback of the outer `forEach`, applied to one of the two selectors
(`none` is the `null` that `getElementById` returns for a missing element). -/
def populate (select : Option (List Opt)) (satellites : Json) :
    Option (List Opt) × Option JSError :=
  match select with
  | none => (none, some .typeError)
  | some _ =>
    match satellites with
    | .arr xs =>
      let r := fillOptions xs [placeholder]
      (some r.1, r.2)
    | _ => (some [placeholder], some .typeError)

/-- The second `then` callback: `#satellite_id1` is processed first, then
`#satellite_id2`; an error thrown on the way ends the callback. -/
def responseHandler (satellites : Json) (w : World) : World :=
  let r1 := populate w.sat1 satellites
  match r1.2 with
  | some e => { w with sat1 := r1.1, errors := w.errors ++ [e] }
  | none =>
    let r2 := populate w.sat2 satellites
    match r2.2 with
    | some e => { w with sat1 := r1.1, sat2 := r2.1, errors := w.errors ++ [e] }
    | none => { w with sat1 := r1.1, sat2 := r2.1 }

/-- The promise chain `fetch(..).then(r => r.json()).then(handler)` once the
fetch has settled; there is no `catch`. -/
def onReply (r : Reply) (w : World) : World :=
  match r with
  | .networkFailure => { w with errors := w.errors ++ [.fetchRejected] }
  | .invalidJson => { w with errors := w.errors ++ [.jsonRejected] }
  | .json v => responseHandler v w

/-! ## The change listener (lines 16-38) -/

/-- The URL passed to `fetch`. -/
def fetchUrl (constellationId : String) : String :=
  "/satellites/by-constellation/" ++ constellationId

/-- The `change` listener body: a non-empty value starts one fetch. -/
def onChange (w : World) : World :=
  match w.parent with
  | none => w
  | some constellationId =>
    if constellationId = "" then w
    else { w with pending := w.pending ++ [fetchUrl constellationId],
                  requests := w.requests ++ [fetchUrl constellationId] }

/-- Dispatch of a `change` event on `#constellation_id`. -/
def dispatchChange (w : World) : World :=
  if w.listening then onChange w else w

/-! ## The timer callbacks (lines 6-10) -/

/-- Apply `f` to the element at index `i`, if there is one. -/
def updateAt {α : Type} (f : α → α) : Nat → List α → List α
  | _, [] => []
  | 0, a :: rest => f a :: rest
  | i + 1, a :: rest => a :: updateAt f i rest

/-- The style writes of the outer timer callback. -/
def fadeNode (a : AlertNode) : AlertNode :=
  { a with style := { opacity := "0", transition := "opacity 0.5s ease" } }

/-- The effect of `alert.remove()` on the node. -/
def detachNode (a : AlertNode) : AlertNode :=
  { a with attached := false }

/-- Run one timer callback at the current time. -/
def runTask (t : Task) (w : World) : World :=
  match t with
  | .fade i =>
    { w with alerts := updateAt fadeNode i w.alerts,
             timers := w.timers ++ [⟨w.now + 500, .detach i⟩],
             trace := w.trace ++ [(w.now, .opacitySet i)] }
  | .detach i =>
    { w with alerts := updateAt detachNode i w.alerts,
             trace := w.trace ++ [(w.now, .removed i)] }

/-! ## The `DOMContentLoaded` callback (lines 2-45) -/

/-- The state right after the script's `DOMContentLoaded` callback has run on `page`. -/
def domContentLoaded (page : Page) : World :=
  let w0 : World :=
    { now := 0,
      alerts := page.alerts.map (fun s => ⟨s, true⟩),
      parent := page.parent, sat1 := page.sat1, sat2 := page.sat2,
      listening := false,
      timers := (List.range page.alerts.length).map (fun i => ⟨3000, .fade i⟩),
      pending := [], requests := [], settled := [], errors := [], trace := [] }
  match page.parent with
  | none => w0
  | some v =>
    let w1 := { w0 with listening := true }
    if v = "" then w1 else dispatchChange w1

/-! ## The virtual clock -/

/-- The next timer to fire and the timers left: the earliest due time wins,
ties go to the earlier registration. -/
def popTimer : List Timer → Option (Timer × List Timer)
  | [] => none
  | t :: rest =>
    match popTimer rest with
    | none => some (t, [])
    | some (u, others) => if t.due ≤ u.due then some (t, rest) else some (u, t :: others)

/-- Fire the next timer if it is due by time `limit`; the clock jumps to its due time. -/
def tick (limit : Nat) (w : World) : Option World :=
  match popTimer w.timers with
  | none => none
  | some (t, rest) =>
    if t.due ≤ limit then some (runTask t.task { w with now := max w.now t.due, timers := rest })
    else none

/-- Callbacks still to run for a timer queue: a fade timer schedules one more timer. -/
def timerFuel : List Timer → Nat
  | [] => 0
  | ⟨_, .fade _⟩ :: rest => 2 + timerFuel rest
  | ⟨_, .detach _⟩ :: rest => 1 + timerFuel rest

/-- Fire due timers in order, at most `fuel` of them, then move the clock to `limit`. -/
def advanceFuel : Nat → Nat → World → World
  | 0, limit, w => { w with now := max w.now limit }
  | fuel + 1, limit, w =>
    match tick limit w with
    | none => { w with now := max w.now limit }
    | some w1 => advanceFuel fuel limit w1

/-- Let virtual time pass until `limit`, firing every timer that becomes due. -/
def advance (limit : Nat) (w : World) : World :=
  advanceFuel (timerFuel w.timers) limit w

/-! ## The step function -/

/-- What can happen to the page after the script has run. -/
inductive Action where
  /-- a `change` event is dispatched on `#constellation_id` -/
  | change : Action
  /-- the value of `#constellation_id` becomes `v` -/
  | setValue (v : String) : Action
  /-- the in-flight fetch at position `k` settles with `r` -/
  | respond (k : Nat) (r : Reply) : Action
  /-- virtual time passes until `limit` -/
  | advance (limit : Nat) : Action
  /-- an alert element is added to the document -/
  | addAlert (s : AlertStyle) : Action

/-- One step of the page. -/
def step (w : World) : Action → World
  | .change => dispatchChange w
  | .setValue v =>
    match w.parent with
    | none => w
    | some _ => { w with parent := some v }
  | .respond k r =>
    match w.pending[k]? with
    | none => w
    | some url =>
      onReply r { w with pending := w.pending.eraseIdx k, settled := (url, r) :: w.settled }
  | .advance limit => advance limit w
  | .addAlert s => { w with alerts := w.alerts ++ [⟨s, true⟩] }

/-- A sequence of steps. -/
def run (w : World) (acts : List Action) : World :=
  acts.foldl step w

/-! ## Vocabulary of the statements -/

/-- The text of an identifier or display label: the string itself, or the
canonical text of the number. -/
def fieldText : Json → Option String
  | .str s => some s
  | .num text => some text
  | _ => none

/-- The option the specification asks for a remote item, a record with an
identifier `id` and a display label `satellite_id` (each a string or a
number): value the identifier, label "卫星 " followed by the display label.
`none` when the value is not such a record. -/
def specOption (s : Json) : Option Opt :=
  match s with
  | .obj kvs =>
    match lookupKey "id" kvs, lookupKey "satellite_id" kvs with
    | some idv, some label =>
      match fieldText idv, fieldText label with
      | some value, some text => some ⟨value, "卫星 " ++ text⟩
      | _, _ => none
    | _, _ => none
  | _ => none

/-- Whether a JSON value is a remote item. -/
def isRemoteItem (s : Json) : Bool :=
  (specOption s).isSome

/-- The option list the specification asks for a response: the placeholder,
then one option per remote item in response order. -/
def specOptions (items : List Json) : List Opt :=
  placeholder :: items.filterMap specOption

/-- The user picks each of `vs` in turn: the value changes, then `change` fires. -/
def selectEach (vs : List String) : List Action :=
  vs.flatMap (fun v => [Action.setValue v, Action.change])

/-- The reply of the most recently settled fetch that reached the response handler. -/
def lastHandled : List (String × Reply) → Option Json
  | [] => none
  | (_, .json v) :: _ => some v
  | (_, .networkFailure) :: rest => lastHandled rest
  | (_, .invalidJson) :: rest => lastHandled rest

/-- The outcome of the most recently settled fetch of `url`. -/
def lastReplyFor (url : String) : List (String × Reply) → Option Reply
  | [] => none
  | (u, r) :: rest => if u = url then some r else lastReplyFor url rest

/-- A reply as the endpoint is specified to give it, or a failure: a network
failure, a body that is not JSON, or a JSON array of remote items. -/
def wellFormedReply : Reply → Prop
  | .json v => ∃ items, v = .arr items ∧ ∀ s ∈ items, isRemoteItem s = true
  | _ => True

/-- Every response arrival among `acts` carries a well-formed reply. -/
def wellFormedActs (acts : List Action) : Prop :=
  ∀ k r, Action.respond k r ∈ acts → wellFormedReply r

/-- The dependent selectors hold the list built from the response to the most
recent request for the parent's current value. -/
def reflectsCurrentParent (w : World) : Prop :=
  ∀ v, w.parent = some v →
    ∃ items, lastReplyFor (fetchUrl v) w.settled = some (.json (.arr items)) ∧
      w.sat1 = some (specOptions items) ∧ w.sat2 = some (specOptions items)

/-- Responses arrive in request order: it is always the oldest in-flight fetch
that settles. -/
def inRequestOrder (acts : List Action) : Prop :=
  ∀ k r, Action.respond k r ∈ acts → k = 0

/-- When the most recent request is the one for the parent's current value,
that request has been answered, and unless it failed the dependent selectors
hold the list built from its response. -/
def reflectsAnsweredParent (w : World) : Prop :=
  ∀ v, w.parent = some v → w.requests.getLast? = some (fetchUrl v) →
    ∃ r, lastReplyFor (fetchUrl v) w.settled = some r ∧
      (r = .networkFailure ∨ r = .invalidJson ∨
        ∃ items, r = .json (.arr items) ∧
          w.sat1 = some (specOptions items) ∧ w.sat2 = some (specOptions items))

/-- The dependent selectors hold the list built from the most recently handled
response, or the lists `o1`, `o2` when no response has been handled yet. -/
def reflectsLastHandled (o1 o2 : List Opt) (w : World) : Prop :=
  match lastHandled w.settled with
  | none => w.sat1 = some o1 ∧ w.sat2 = some o2
  | some v => ∃ items, v = .arr items ∧
      w.sat1 = some (specOptions items) ∧ w.sat2 = some (specOptions items)

/-! ## Concrete pages and replies -/

/-- The response of the specification's example. -/
def specReply : List Json :=
  [.obj [("id", .num "1"), ("satellite_id", .str "A1")],
   .obj [("id", .num "2"), ("satellite_id", .str "A2")]]

/-- A pairing form with constellation 5 preselected and stale options in the first selector. -/
def linkForm : Page :=
  { alerts := [], parent := some "5", sat1 := some [⟨"7", "卫星 old"⟩], sat2 := some [] }

/-- A pairing form with nothing selected yet. -/
def blankForm : Page :=
  { alerts := [], parent := some "", sat1 := some [⟨"7", "卫星 old"⟩], sat2 := some [] }

/-- The response to the request for constellation 8 in the race example. -/
def otherReply : List Json :=
  [.obj [("id", .num "9"), ("satellite_id", .str "B7")]]

/-- A page with `#constellation_id` and `#satellite_id1` but no `#satellite_id2`. -/
def halfForm : Page :=
  { alerts := [], parent := some "5", sat1 := some [⟨"7", "卫星 old"⟩], sat2 := none }

/-- A page with `#constellation_id` and `#satellite_id2` but no `#satellite_id1`. -/
def otherHalfForm : Page :=
  { alerts := [], parent := some "5", sat1 := none, sat2 := some [⟨"7", "卫星 old"⟩] }

/-- The race: constellation 5 is selected, then constellation 8; the response
for 8 arrives first, the response for 5 last. -/
def raceActs : List Action :=
  selectEach ["5", "8"] ++
    [.respond 1 (.json (.arr otherReply)), .respond 0 (.json (.arr specReply))]

/-- Both responses of the race arrive in request order, then the parent's value
is set back to constellation 5 without a change event. -/
def staleEditActs : List Action :=
  selectEach ["5", "8"] ++
    [.respond 0 (.json (.arr specReply)), .respond 0 (.json (.arr otherReply)),
     .setValue "5"]

/-- Constellation 5 is selected, then constellation 8; both responses arrive in
request order. -/
def orderedActs : List Action :=
  selectEach ["5", "8"] ++
    [.respond 0 (.json (.arr specReply)), .respond 0 (.json (.arr otherReply))]

/-! ## Vocabulary of the alert timeline -/

/-- The 3000ms timers for the alerts with indices `fs`. -/
def fadeTimers (fs : List Nat) : List Timer :=
  fs.map (fun i => ⟨3000, .fade i⟩)

/-- The removal timers (due at 3500ms) for the alerts with indices `ds`. -/
def detachTimers (ds : List Nat) : List Timer :=
  ds.map (fun i => ⟨3500, .detach i⟩)

/-- Alerts are added, then time passes until `ta`. -/
def untilFade (x1 : List AlertStyle) (ta : Nat) : List Action :=
  x1.map Action.addAlert ++ [Action.advance ta]

/-- After `untilFade`, more alerts are added, then time passes until `tb`. -/
def untilRemoval (x1 x2 : List AlertStyle) (ta tb : Nat) : List Action :=
  untilFade x1 ta ++ (x2.map Action.addAlert ++ [Action.advance tb])

/-- After `untilRemoval`, more alerts are added, then time passes until `tc`. -/
def afterRemoval (x1 x2 x3 : List AlertStyle) (ta tb tc : Nat) : List Action :=
  untilRemoval x1 x2 ta tb ++ (x3.map Action.addAlert ++ [Action.advance tc])

/-- The alert a logged event is about. -/
def eventIndex : AlertEvent → Nat
  | .opacitySet i => i
  | .removed i => i

/-- Whether a logged event is a removal from the document. -/
def isRemoval : AlertEvent → Bool
  | .opacitySet _ => false
  | .removed _ => true

/-- A page with two alerts and nothing else. -/
def alertPage : Page :=
  { alerts := [⟨"1", ""⟩, ⟨"", ""⟩], parent := none, sat1 := none, sat2 := none }

/-! ## The conversions on sample values -/

/-- `ToString` on sample values: scalars, a nested array with a `null` element,
a plain object, and values whose conversion throws. -/
theorem toJSString_samples :
    Json.toJSString (.num "1.5") = .ok "1.5" ∧
    Json.toJSString (.str "A1") = .ok "A1" ∧
    Json.toJSString (.bool false) = .ok "false" ∧
    Json.toJSString .null = .ok "null" ∧
    Json.toJSString (.arr []) = .ok "" ∧
    Json.toJSString (.arr [.null]) = .ok "" ∧
    Json.toJSString (.arr [.num "1", .null, .arr [.bool true, .obj []], .str "a"]) =
      .ok "1,,true,[object Object],a" ∧
    Json.toJSString (.obj [("valueOf", .num "1")]) = .ok "[object Object]" ∧
    Json.toJSString (.obj [("toString", .num "1")]) = .error .typeError ∧
    Json.toJSString (.arr [.num "1", .obj [("toString", .null)]]) = .error .typeError ∧
    propToString none = .ok "undefined" :=
  ⟨rfl, rfl, rfl, rfl, rfl, rfl, rfl, rfl, rfl, rfl, rfl⟩

/-- Property reads on sample values: the last duplicate key wins, a missing
key and a read from a scalar give `undefined`, a read from `null` throws. -/
theorem getProp_samples :
    lookupKey "id" [("id", .num "1"), ("x", .null), ("id", .num "2")] = some (.num "2") ∧
    lookupKey "id" [("satellite_id", .str "A1")] = none ∧
    (∃ v, getProp (.str "abc") "id" = .ok v ∧ v = none) ∧
    (∃ v, getProp (.arr [.num "1"]) "id" = .ok v ∧ v = none) ∧
    (∃ e, getProp .null "id" = .error e ∧ e = .typeError) :=
  ⟨rfl, rfl, ⟨_, rfl, rfl⟩, ⟨_, rfl, rfl⟩, ⟨_, rfl, rfl⟩⟩

/-- An item whose `id` cannot be converted to a string: the handler throws on
it after resetting `#satellite_id1` to the placeholder, and `#satellite_id2`
keeps its options. -/
theorem responseHandler_unconvertible_id :
    (step (domContentLoaded linkForm)
      (.respond 0 (.json (.arr [.obj [("id", .obj [("toString", .num "1")]),
        ("satellite_id", .str "x")]])))).sat1 = some [⟨"", "-- 请选择卫星 --"⟩] ∧
    (step (domContentLoaded linkForm)
      (.respond 0 (.json (.arr [.obj [("id", .obj [("toString", .num "1")]),
        ("satellite_id", .str "x")]])))).sat2 = some [] ∧
    (step (domContentLoaded linkForm)
      (.respond 0 (.json (.arr [.obj [("id", .obj [("toString", .num "1")]),
        ("satellite_id", .str "x")]])))).errors = [.typeError] := by
  decide

/-- Items that are not remote items but convert without error: a missing
field reads as "undefined", a `null` field as "null", an array field is
joined. -/
theorem responseHandler_odd_items :
    (step (domContentLoaded linkForm)
      (.respond 0 (.json (.arr [.obj [("satellite_id", .null)], .str "s",
        .obj [("id", .arr [.num "1", .num "2"]), ("satellite_id", .bool true)]])))).sat2 =
      some [⟨"", "-- 请选择卫星 --"⟩, ⟨"undefined", "卫星 null"⟩,
        ⟨"undefined", "卫星 undefined"⟩, ⟨"1,2", "卫星 true"⟩] := by
  decide

/-! ## Lemmas on the response handler -/

theorem makeOption_of_remoteItem (s : Json) (o : Opt) (h : specOption s = some o) :
    makeOption s = .ok o := by
  cases s with
  | obj kvs =>
    simp only [specOption] at h
    cases hid : lookupKey "id" kvs with
    | none => simp [hid] at h
    | some idv =>
      cases hlab : lookupKey "satellite_id" kvs with
      | none => simp [hid, hlab] at h
      | some label =>
        cases idv <;> cases label <;>
          simp_all [fieldText, makeOption, getProp, propToString, Json.toJSString]
  | _ => simp [specOption] at h

theorem fillOptions_of_remoteItems (items : List Json)
    (h : ∀ s ∈ items, isRemoteItem s = true) (opts : List Opt) :
    fillOptions items opts = (opts ++ items.filterMap specOption, none) := by
  induction items generalizing opts with
  | nil => simp [fillOptions]
  | cons s rest ih =>
    have hs : isRemoteItem s = true := h s (List.mem_cons_self _ _)
    have hrest : ∀ t ∈ rest, isRemoteItem t = true :=
      fun t ht => h t (List.mem_cons_of_mem _ ht)
    obtain ⟨o, ho⟩ := Option.isSome_iff_exists.mp hs
    simp [fillOptions, makeOption_of_remoteItem s o ho, ih hrest, ho]

theorem specOptions_length (items : List Json) (h : ∀ s ∈ items, isRemoteItem s = true) :
    (specOptions items).length = items.length + 1 := by
  induction items with
  | nil => rfl
  | cons s rest ih =>
    have hs : isRemoteItem s = true := h s (List.mem_cons_self _ _)
    have hrest : ∀ t ∈ rest, isRemoteItem t = true :=
      fun t ht => h t (List.mem_cons_of_mem _ ht)
    obtain ⟨o, ho⟩ := Option.isSome_iff_exists.mp hs
    have := ih hrest
    simp only [specOptions, List.length_cons, List.filterMap_cons, ho] at *
    omega

theorem specOptions_getElem? (items : List Json) (h : ∀ s ∈ items, isRemoteItem s = true)
    (i : Nat) (s : Json) (hi : items[i]? = some s) :
    (specOptions items)[i + 1]? = specOption s := by
  induction items generalizing i with
  | nil => simp at hi
  | cons t rest ih =>
    have ht : isRemoteItem t = true := h t (List.mem_cons_self _ _)
    have hrest : ∀ u ∈ rest, isRemoteItem u = true :=
      fun u hu => h u (List.mem_cons_of_mem _ hu)
    obtain ⟨o, ho⟩ := Option.isSome_iff_exists.mp ht
    cases i with
    | zero =>
      simp at hi
      subst hi
      simp [specOptions, ho]
    | succ j =>
      have hj : rest[j]? = some s := by simpa using hi
      have := ih hrest j hj
      simp only [specOptions, List.filterMap_cons, ho, List.getElem?_cons_succ] at *
      exact this

theorem populate_of_present (o : List Opt) (items : List Json)
    (h : ∀ s ∈ items, isRemoteItem s = true) :
    populate (some o) (.arr items) = (some (specOptions items), none) := by
  simp [populate, fillOptions_of_remoteItems items h, specOptions]

theorem responseHandler_of_present (w : World) (items : List Json) (o1 o2 : List Opt)
    (h1 : w.sat1 = some o1) (h2 : w.sat2 = some o2) (h : ∀ s ∈ items, isRemoteItem s = true) :
    responseHandler (.arr items) w =
      { w with sat1 := some (specOptions items), sat2 := some (specOptions items) } := by
  simp [responseHandler, h1, h2, populate_of_present _ items h]

theorem step_respond_of_pending (w : World) (k : Nat) (url : String) (r : Reply)
    (hk : w.pending[k]? = some url) :
    step w (.respond k r) =
      onReply r { w with pending := w.pending.eraseIdx k, settled := (url, r) :: w.settled } := by
  simp [step, hk]

/-! ## Lemmas on the change listener -/

theorem dispatchChange_of_value (w : World) (v : String) (hl : w.listening = true)
    (hp : w.parent = some v) (hv : v ≠ "") :
    dispatchChange w =
      { w with pending := w.pending ++ [fetchUrl v], requests := w.requests ++ [fetchUrl v] } := by
  simp [dispatchChange, onChange, hl, hp, hv]

theorem select_step (w : World) (v0 v : String) (hl : w.listening = true)
    (hp : w.parent = some v0) (hv : v ≠ "") :
    step (step w (.setValue v)) .change =
      { w with parent := some v, pending := w.pending ++ [fetchUrl v],
               requests := w.requests ++ [fetchUrl v] } := by
  simp [step, hp, dispatchChange, onChange, hl, hv]

theorem run_selectEach (vs : List String) (hvs : ∀ u ∈ vs, u ≠ "") (w : World) (v0 : String)
    (hl : w.listening = true) (hp : w.parent = some v0) :
    (run w (selectEach vs)).requests = w.requests ++ vs.map fetchUrl ∧
    (run w (selectEach vs)).pending = w.pending ++ vs.map fetchUrl := by
  induction vs generalizing w v0 with
  | nil => simp [selectEach, run]
  | cons u rest ih =>
    have hu : u ≠ "" := hvs u (List.mem_cons_self _ _)
    have hrest : ∀ t ∈ rest, t ≠ "" := fun t ht => hvs t (List.mem_cons_of_mem _ ht)
    have hstep := select_step w v0 u hl hp hu
    have hrun : run w (selectEach (u :: rest)) =
        run (step (step w (.setValue u)) .change) (selectEach rest) := by
      simp [selectEach, run]
    rw [hrun, hstep]
    have := ih hrest { w with parent := some u, pending := w.pending ++ [fetchUrl u],
                              requests := w.requests ++ [fetchUrl u] } u hl rfl
    simpa using this

/-! ## Lemmas on in-flight fetches -/

theorem getElem?_at_length (p : List String) (x : String) (rest : List String) :
    (p ++ x :: rest)[p.length]? = some x := by
  induction p with
  | nil => simp
  | cons y ys ih => simpa using ih

theorem getElem?_after_length (p : List String) (x y : String) (rest : List String) :
    (p ++ x :: y :: rest)[p.length + 1]? = some y := by
  induction p with
  | nil => simp
  | cons z zs ih => simpa using ih

theorem eraseIdx_at_length (p : List String) (x : String) (rest : List String) :
    (p ++ x :: rest).eraseIdx p.length = p ++ rest := by
  induction p with
  | nil => rfl
  | cons y ys ih => simpa using ih

theorem eraseIdx_after_length (p : List String) (x y : String) (rest : List String) :
    (p ++ x :: y :: rest).eraseIdx (p.length + 1) = p ++ x :: rest := by
  induction p with
  | nil => rfl
  | cons z zs ih => simpa using ih

theorem step_respond_items (w : World) (k : Nat) (url : String) (items : List Json)
    (o1 o2 : List Opt) (hk : w.pending[k]? = some url)
    (h1 : w.sat1 = some o1) (h2 : w.sat2 = some o2)
    (hitems : ∀ s ∈ items, isRemoteItem s = true) :
    step w (.respond k (.json (.arr items))) =
      { w with pending := w.pending.eraseIdx k,
               settled := (url, Reply.json (Json.arr items)) :: w.settled,
               sat1 := some (specOptions items), sat2 := some (specOptions items) } := by
  rw [step_respond_of_pending w k url _ hk]
  simp only [onReply]
  rw [responseHandler_of_present
    { w with pending := w.pending.eraseIdx k,
             settled := (url, Reply.json (Json.arr items)) :: w.settled }
    items o1 o2 h1 h2 hitems]

theorem run_select_two (w : World) (v0 v1 v2 : String) (hl : w.listening = true)
    (hp : w.parent = some v0) (hv1 : v1 ≠ "") (hv2 : v2 ≠ "") :
    run w (selectEach [v1, v2]) =
      { w with parent := some v2,
               pending := w.pending ++ [fetchUrl v1, fetchUrl v2],
               requests := w.requests ++ [fetchUrl v1, fetchUrl v2] } := by
  have hrun : run w (selectEach [v1, v2]) =
      step (step (step (step w (.setValue v1)) .change) (.setValue v2)) .change := by
    simp [selectEach, run]
  rw [hrun, select_step w v0 v1 hl hp hv1,
    select_step { w with parent := some v1, pending := w.pending ++ [fetchUrl v1],
                         requests := w.requests ++ [fetchUrl v1] } v1 v2 hl rfl hv2]
  simp

/-! ## The claims on the dropdown loader -/

/-- C1: when a successful fetch response carrying a JSON array of remote items
`s_1..s_n` is handled and both dependent selectors are present, each selector
ends up with exactly `n+1` options: the placeholder with empty value, then for
each item in response order an option whose value is the item's `id` as a
string and whose text is "卫星 " followed by its `satellite_id`; the prior
options are gone and no error is raised. -/
theorem C1_response_rebuilds_both_selectors (w : World) (k : Nat) (url : String)
    (items : List Json) (o1 o2 : List Opt)
    (hk : w.pending[k]? = some url)
    (h1 : w.sat1 = some o1) (h2 : w.sat2 = some o2)
    (hitems : ∀ s ∈ items, isRemoteItem s = true) :
    (step w (.respond k (.json (.arr items)))).sat1 = some (specOptions items) ∧
    (step w (.respond k (.json (.arr items)))).sat2 = some (specOptions items) ∧
    (step w (.respond k (.json (.arr items)))).errors = w.errors ∧
    (specOptions items).length = items.length + 1 ∧
    (specOptions items)[0]? = some ⟨"", "-- 请选择卫星 --"⟩ ∧
    (∀ i kvs idv label value text, items[i]? = some (.obj kvs) →
      lookupKey "id" kvs = some idv → lookupKey "satellite_id" kvs = some label →
      fieldText idv = some value → fieldText label = some text →
      (specOptions items)[i + 1]? = some ⟨value, "卫星 " ++ text⟩) := by
  rw [step_respond_of_pending w k url _ hk]
  simp only [onReply]
  rw [responseHandler_of_present
    { w with pending := w.pending.eraseIdx k,
             settled := (url, Reply.json (Json.arr items)) :: w.settled }
    items o1 o2 h1 h2 hitems]
  refine ⟨rfl, rfl, rfl, specOptions_length items hitems,
    by simp [specOptions, placeholder], ?_⟩
  intro i kvs idv label value text hi hid hlab hvalue htext
  rw [specOptions_getElem? items hitems i _ hi]
  simp [specOption, hid, hlab, hvalue, htext]

theorem C1_witness :
    (step (domContentLoaded linkForm) (.respond 0 (.json (.arr specReply)))).sat1 =
        some (specOptions specReply) ∧
    (step (domContentLoaded linkForm) (.respond 0 (.json (.arr specReply)))).sat2 =
        some (specOptions specReply) ∧
    (specOptions specReply)[1 + 1]? = some ⟨"2", "卫星 " ++ "A2"⟩ ∧
    specOptions specReply = [⟨"", "-- 请选择卫星 --"⟩, ⟨"1", "卫星 A1"⟩, ⟨"2", "卫星 A2"⟩] :=
  have h := C1_response_rebuilds_both_selectors (domContentLoaded linkForm) 0
    "/satellites/by-constellation/5" specReply [⟨"7", "卫星 old"⟩] [] rfl rfl rfl
    (by decide)
  ⟨h.1, h.2.1,
    h.2.2.2.2.2 1 [("id", .num "2"), ("satellite_id", .str "A2")] (.num "2") (.str "A2")
      "2" "A2" rfl rfl rfl rfl rfl,
    by decide⟩

/-- C2: with the listener registered and a non-empty parent value `v`, one
change event issues exactly one fetch, whose URL is
"/satellites/by-constellation/" followed by `v`; and selecting `k` non-empty
values one after the other issues exactly `k` fetches, one per change event,
equal values included. -/
theorem C2_one_fetch_per_change (w : World) (v : String) (vs : List String)
    (hl : w.listening = true) (hp : w.parent = some v) (hv : v ≠ "")
    (hvs : ∀ u ∈ vs, u ≠ "") :
    (step w .change).requests = w.requests ++ ["/satellites/by-constellation/" ++ v] ∧
    (step w .change).pending = w.pending ++ ["/satellites/by-constellation/" ++ v] ∧
    (run w (selectEach vs)).requests =
      w.requests ++ vs.map (fun u => "/satellites/by-constellation/" ++ u) ∧
    (run w (selectEach vs)).requests.length = w.requests.length + vs.length := by
  have hs : step w .change = dispatchChange w := rfl
  rw [hs, dispatchChange_of_value w v hl hp hv]
  have hr := (run_selectEach vs hvs w v hl hp).1
  refine ⟨rfl, rfl, ?_, ?_⟩
  · rw [hr]; rfl
  · rw [hr]; simp

theorem C2_witness :
    (step (domContentLoaded blankForm) (.setValue "5")).listening = true ∧
    (step (domContentLoaded blankForm) (.setValue "5")).parent = some "5" ∧
    (step (step (domContentLoaded blankForm) (.setValue "5")) .change).requests =
      [] ++ ["/satellites/by-constellation/" ++ "5"] ∧
    (run (step (domContentLoaded blankForm) (.setValue "5")) (selectEach ["3", "3", "8"])).requests.length
      = 0 + 3 ∧
    "/satellites/by-constellation/" ++ "5" = "/satellites/by-constellation/5" :=
  have h := C2_one_fetch_per_change (step (domContentLoaded blankForm) (.setValue "5")) "5"
    ["3", "3", "8"] rfl rfl (by decide) (by decide)
  ⟨rfl, rfl, h.1, h.2.2.2, by decide⟩

/-- C3: when the parent selector's value is empty, a change event changes
nothing at all: no fetch is issued or left in flight, and the option lists of
both dependent selectors stay as they were. -/
theorem C3_empty_value_is_noop (w : World) (hp : w.parent = some "") :
    step w .change = w ∧
    (step w .change).requests = w.requests ∧
    (step w .change).pending = w.pending ∧
    (step w .change).sat1 = w.sat1 ∧
    (step w .change).sat2 = w.sat2 := by
  have h : step w .change = w := by
    simp only [step, dispatchChange, onChange, hp]
    split <;> simp
  rw [h]
  exact ⟨rfl, rfl, rfl, rfl, rfl⟩

theorem C3_witness :
    (domContentLoaded blankForm).parent = some "" ∧
    (step (domContentLoaded blankForm) .change).requests = (domContentLoaded blankForm).requests ∧
    (step (domContentLoaded blankForm) .change).sat1 = (domContentLoaded blankForm).sat1 ∧
    (step (domContentLoaded blankForm) .change).sat2 = (domContentLoaded blankForm).sat2 :=
  have h := C3_empty_value_is_noop (domContentLoaded blankForm) rfl
  ⟨rfl, h.2.1, h.2.2.2.1, h.2.2.2.2⟩

/-- C4: at page-ready, when the parent selector exists with value `v`: if `v`
is non-empty exactly one fetch, to "/satellites/by-constellation/" followed by
`v`, has been issued and is in flight without any further event; if `v` is
empty no fetch has been issued.  The listener is registered in both cases. -/
theorem C4_initial_fetch (page : Page) (v : String) (hp : page.parent = some v) :
    (v ≠ "" →
      (domContentLoaded page).requests = ["/satellites/by-constellation/" ++ v] ∧
      (domContentLoaded page).pending = ["/satellites/by-constellation/" ++ v]) ∧
    (v = "" →
      (domContentLoaded page).requests = [] ∧ (domContentLoaded page).pending = []) ∧
    (domContentLoaded page).listening = true := by
  refine ⟨?_, ?_, ?_⟩
  · intro hv
    simp [domContentLoaded, hp, hv, dispatchChange, onChange, fetchUrl]
  · intro hv
    simp [domContentLoaded, hp, hv]
  · by_cases hv : v = "" <;>
      simp [domContentLoaded, hp, hv, dispatchChange, onChange]

theorem C4_witness :
    linkForm.parent = some "5" ∧ blankForm.parent = some "" ∧
    (domContentLoaded linkForm).requests = ["/satellites/by-constellation/" ++ "5"] ∧
    (domContentLoaded blankForm).requests = [] :=
  ⟨rfl, rfl, ((C4_initial_fetch linkForm "5" rfl).1 (by decide)).1,
    ((C4_initial_fetch blankForm "" rfl).2.1 rfl).1⟩

/-- C5: two change events with non-empty values `v1` then `v2` put two fetches
in flight; whatever the order in which their two successful responses (JSON
arrays of remote items) arrive,
both dependent selectors end up with the option list built from the response
that is handled last.  When the response for `v2` arrives before the response
for `v1`, the selectors hold the list built from the response for `v1` while
the parent still shows `v2`. -/
theorem C5_last_response_wins (w : World) (v0 v1 v2 : String) (a b : List Json)
    (o1 o2 : List Opt)
    (hl : w.listening = true) (hp : w.parent = some v0)
    (h1 : w.sat1 = some o1) (h2 : w.sat2 = some o2)
    (hv1 : v1 ≠ "") (hv2 : v2 ≠ "")
    (ha : ∀ s ∈ a, isRemoteItem s = true) (hb : ∀ s ∈ b, isRemoteItem s = true) :
    (run w (selectEach [v1, v2])).pending = w.pending ++ [fetchUrl v1, fetchUrl v2] ∧
    (run w (selectEach [v1, v2])).parent = some v2 ∧
    -- the response for v1 arrives first, the response for v2 last
    (run (run w (selectEach [v1, v2]))
        [.respond w.pending.length (.json (.arr a)),
         .respond w.pending.length (.json (.arr b))]) =
      { w with parent := some v2,
               requests := w.requests ++ [fetchUrl v1, fetchUrl v2],
               settled := (fetchUrl v2, .json (.arr b)) :: (fetchUrl v1, .json (.arr a)) :: w.settled,
               sat1 := some (specOptions b), sat2 := some (specOptions b) } ∧
    -- the response for v2 arrives first, the response for v1 last
    (run (run w (selectEach [v1, v2]))
        [.respond (w.pending.length + 1) (.json (.arr b)),
         .respond w.pending.length (.json (.arr a))]) =
      { w with parent := some v2,
               requests := w.requests ++ [fetchUrl v1, fetchUrl v2],
               settled := (fetchUrl v1, .json (.arr a)) :: (fetchUrl v2, .json (.arr b)) :: w.settled,
               sat1 := some (specOptions a), sat2 := some (specOptions a) } := by
  rw [run_select_two w v0 v1 v2 hl hp hv1 hv2]
  refine ⟨rfl, rfl, ?_, ?_⟩
  · simp only [run, List.foldl]
    rw [step_respond_items
      { w with parent := some v2, pending := w.pending ++ [fetchUrl v1, fetchUrl v2],
               requests := w.requests ++ [fetchUrl v1, fetchUrl v2] }
      w.pending.length (fetchUrl v1) a o1 o2 (getElem?_at_length _ _ _) h1 h2 ha]
    simp only [eraseIdx_at_length]
    rw [step_respond_items
      { w with parent := some v2, pending := w.pending ++ [fetchUrl v2],
               requests := w.requests ++ [fetchUrl v1, fetchUrl v2],
               settled := (fetchUrl v1, Reply.json (Json.arr a)) :: w.settled,
               sat1 := some (specOptions a), sat2 := some (specOptions a) }
      w.pending.length (fetchUrl v2) b (specOptions a) (specOptions a)
      (getElem?_at_length _ _ _) rfl rfl hb]
    simp only [eraseIdx_at_length, List.append_nil]
  · simp only [run, List.foldl]
    rw [step_respond_items
      { w with parent := some v2, pending := w.pending ++ [fetchUrl v1, fetchUrl v2],
               requests := w.requests ++ [fetchUrl v1, fetchUrl v2] }
      (w.pending.length + 1) (fetchUrl v2) b o1 o2 (getElem?_after_length _ _ _ _) h1 h2 hb]
    simp only [eraseIdx_after_length]
    rw [step_respond_items
      { w with parent := some v2, pending := w.pending ++ [fetchUrl v1],
               requests := w.requests ++ [fetchUrl v1, fetchUrl v2],
               settled := (fetchUrl v2, Reply.json (Json.arr b)) :: w.settled,
               sat1 := some (specOptions b), sat2 := some (specOptions b) }
      w.pending.length (fetchUrl v1) a (specOptions b) (specOptions b)
      (getElem?_at_length _ _ _) rfl rfl ha]
    simp only [eraseIdx_at_length, List.append_nil]

theorem C5_witness :
    (run (run (domContentLoaded blankForm) (selectEach ["5", "8"]))
        [.respond (0 + 1) (.json (.arr otherReply)), .respond 0 (.json (.arr specReply))]).sat1 =
      some (specOptions specReply) ∧
    (run (run (domContentLoaded blankForm) (selectEach ["5", "8"]))
        [.respond (0 + 1) (.json (.arr otherReply)), .respond 0 (.json (.arr specReply))]).parent =
      some "8" ∧
    specOptions specReply ≠ specOptions otherReply :=
  have h := C5_last_response_wins (domContentLoaded blankForm) "" "5" "8" specReply otherReply
    [⟨"7", "卫星 old"⟩] [] rfl rfl rfl rfl (by decide) (by decide) (by decide) (by decide)
  ⟨congrArg World.sat1 h.2.2.2, congrArg World.parent h.2.2.2, by decide⟩

/-- C7: a fetch that ends in a network failure or whose body is not valid JSON
never reaches the response handler: settling it only takes the request out of
flight and records one unhandled rejection, so alerts, parent value, the option
lists of both dependent selectors, the timers and the request log are exactly
what they were, and no request is issued again.  In particular a change event
followed by the failure of its fetch leaves both option lists as they were
before the event, with exactly one request issued. -/
theorem C7_failed_fetch_changes_nothing (w u : World) (v url : String) (k : Nat) (r : Reply)
    (hl : w.listening = true) (hp : w.parent = some v) (hv : v ≠ "")
    (hk : u.pending[k]? = some url)
    (hr : r = .networkFailure ∨ r = .invalidJson) :
    (∃ e, (e = JSError.fetchRejected ∨ e = JSError.jsonRejected) ∧
      step u (.respond k r) =
        { u with pending := u.pending.eraseIdx k, settled := (url, r) :: u.settled,
                 errors := u.errors ++ [e] }) ∧
    (step (step w .change) (.respond w.pending.length r)).sat1 = w.sat1 ∧
    (step (step w .change) (.respond w.pending.length r)).sat2 = w.sat2 ∧
    (step (step w .change) (.respond w.pending.length r)).requests =
      w.requests ++ [fetchUrl v] ∧
    (step (step w .change) (.respond w.pending.length r)).pending = w.pending := by
  have hs : step w .change = dispatchChange w := rfl
  rw [hs, dispatchChange_of_value w v hl hp hv]
  rw [step_respond_of_pending _ w.pending.length (fetchUrl v) r (getElem?_at_length _ _ _)]
  rw [step_respond_of_pending u k url r hk]
  simp only [eraseIdx_at_length, List.append_nil]
  rcases hr with rfl | rfl
  · exact ⟨⟨_, Or.inl rfl, rfl⟩, rfl, rfl, rfl, rfl⟩
  · exact ⟨⟨_, Or.inr rfl, rfl⟩, rfl, rfl, rfl, rfl⟩

theorem C7_witness :
    (step (step (step (domContentLoaded blankForm) (.setValue "5")) .change)
      (.respond 0 .invalidJson)).sat1 = some [⟨"7", "卫星 old"⟩] ∧
    (step (step (step (domContentLoaded blankForm) (.setValue "5")) .change)
      (.respond 0 .invalidJson)).sat2 = some [] ∧
    (step (step (step (domContentLoaded blankForm) (.setValue "5")) .change)
      (.respond 0 .invalidJson)).requests = [] ++ [fetchUrl "5"] :=
  have h := C7_failed_fetch_changes_nothing (step (domContentLoaded blankForm) (.setValue "5"))
    (domContentLoaded linkForm) "5" (fetchUrl "5") 0 .invalidJson rfl rfl (by decide) rfl
    (Or.inr rfl)
  ⟨h.2.1, h.2.2.1, h.2.2.2.1⟩

/-- C10: the response handler is not atomic across the two selectors.  With
`#satellite_id1` present and `#satellite_id2` absent, handling an array of
remote items ends in a `TypeError` after the options of `#satellite_id1` have been replaced
by the placeholder and one option per item.  With `#satellite_id1` absent, the
handler ends in a `TypeError` before anything is modified, whatever the
response and whatever `#satellite_id2` holds. -/
theorem C10_handler_not_atomic (wa wb : World) (items : List Json) (o1 : List Opt) (v : Json)
    (ha1 : wa.sat1 = some o1) (ha2 : wa.sat2 = none)
    (hitems : ∀ s ∈ items, isRemoteItem s = true)
    (hb1 : wb.sat1 = none) :
    responseHandler (.arr items) wa =
      { wa with sat1 := some (specOptions items), errors := wa.errors ++ [.typeError] } ∧
    responseHandler v wb = { wb with errors := wb.errors ++ [.typeError] } := by
  constructor
  · have hpop : populate (none : Option (List Opt)) (.arr items) = (none, some .typeError) := rfl
    simp only [responseHandler, ha1, ha2, populate_of_present o1 items hitems, hpop]
  · have hpop : populate (none : Option (List Opt)) v = (none, some .typeError) := rfl
    simp only [responseHandler, hb1, hpop]

theorem C10_witness :
    (responseHandler (.arr specReply) (domContentLoaded halfForm)).sat1 =
      some (specOptions specReply) ∧
    (responseHandler (.arr specReply) (domContentLoaded halfForm)).errors = [] ++ [.typeError] ∧
    (responseHandler (.arr specReply) (domContentLoaded otherHalfForm)).sat2 =
      some [⟨"7", "卫星 old"⟩] ∧
    (responseHandler (.arr specReply) (domContentLoaded otherHalfForm)).errors =
      [] ++ [.typeError] :=
  have h := C10_handler_not_atomic (domContentLoaded halfForm) (domContentLoaded otherHalfForm)
    specReply [⟨"7", "卫星 old"⟩] (.arr specReply) rfl rfl (by decide) rfl
  ⟨congrArg World.sat1 h.1, congrArg World.errors h.1, congrArg World.sat2 h.2,
    congrArg World.errors h.2⟩

/-- C6: on a page that has `#constellation_id` (value "5") and `#satellite_id1`
but no `#satellite_id2`, the fetch issued at page-ready is answered with the
two-item array of the specification's example; handling it raises a
`TypeError` and has replaced the options of `#satellite_id1`. -/
theorem C6_missing_selector_raises :
    (domContentLoaded halfForm).pending = ["/satellites/by-constellation/5"] ∧
    (step (domContentLoaded halfForm) (.respond 0 (.json (.arr specReply)))).errors =
      [.typeError] ∧
    (domContentLoaded halfForm).sat1 = some [⟨"7", "卫星 old"⟩] ∧
    (step (domContentLoaded halfForm) (.respond 0 (.json (.arr specReply)))).sat1 =
      some [⟨"", "-- 请选择卫星 --"⟩, ⟨"1", "卫星 A1"⟩, ⟨"2", "卫星 A2"⟩] := by
  decide

/-! ## The selectors along a run -/

theorem runTask_loader_fields (t : Task) (w : World) :
    (runTask t w).sat1 = w.sat1 ∧ (runTask t w).sat2 = w.sat2 ∧
    (runTask t w).settled = w.settled ∧ (runTask t w).pending = w.pending ∧
    (runTask t w).requests = w.requests ∧ (runTask t w).parent = w.parent := by
  cases t <;> exact ⟨rfl, rfl, rfl, rfl, rfl, rfl⟩

theorem tick_loader_fields (limit : Nat) (w w1 : World) (h : tick limit w = some w1) :
    w1.sat1 = w.sat1 ∧ w1.sat2 = w.sat2 ∧ w1.settled = w.settled ∧
    w1.pending = w.pending ∧ w1.requests = w.requests ∧ w1.parent = w.parent := by
  unfold tick at h
  split at h
  · exact absurd h (by simp)
  · split at h
    · cases h
      exact runTask_loader_fields _ _
    · exact absurd h (by simp)

theorem advanceFuel_loader_fields (fuel limit : Nat) (w : World) :
    (advanceFuel fuel limit w).sat1 = w.sat1 ∧ (advanceFuel fuel limit w).sat2 = w.sat2 ∧
    (advanceFuel fuel limit w).settled = w.settled ∧
    (advanceFuel fuel limit w).pending = w.pending ∧
    (advanceFuel fuel limit w).requests = w.requests ∧
    (advanceFuel fuel limit w).parent = w.parent := by
  induction fuel generalizing w with
  | zero => exact ⟨rfl, rfl, rfl, rfl, rfl, rfl⟩
  | succ n ih =>
    unfold advanceFuel
    cases h : tick limit w with
    | none => exact ⟨rfl, rfl, rfl, rfl, rfl, rfl⟩
    | some w1 =>
      obtain ⟨a1, a2, a3, a4, a5, a6⟩ := tick_loader_fields limit w w1 h
      obtain ⟨b1, b2, b3, b4, b5, b6⟩ := ih w1
      exact ⟨b1.trans a1, b2.trans a2, b3.trans a3, b4.trans a4, b5.trans a5, b6.trans a6⟩

theorem dispatchChange_loader_fields (w : World) :
    (dispatchChange w).sat1 = w.sat1 ∧ (dispatchChange w).sat2 = w.sat2 ∧
    (dispatchChange w).settled = w.settled := by
  unfold dispatchChange onChange
  split
  · split
    · exact ⟨rfl, rfl, rfl⟩
    · split <;> exact ⟨rfl, rfl, rfl⟩
  · exact ⟨rfl, rfl, rfl⟩

theorem dispatchChange_requests (w : World) :
    ∃ issued, (dispatchChange w).requests = w.requests ++ issued ∧
      (dispatchChange w).pending = w.pending ++ issued := by
  unfold dispatchChange onChange
  split
  · split
    · exact ⟨[], by simp⟩
    · split
      · exact ⟨[], by simp⟩
      · exact ⟨_, rfl, rfl⟩
  · exact ⟨[], by simp⟩

theorem responseHandler_requests (v : Json) (w : World) :
    (responseHandler v w).requests = w.requests ∧
    (responseHandler v w).pending = w.pending ∧
    (responseHandler v w).settled = w.settled := by
  unfold responseHandler
  cases h1 : (populate w.sat1 v).2 with
  | some e => simp [h1]
  | none => cases h2 : (populate w.sat2 v).2 <;> simp [h1, h2]

theorem onReply_requests (r : Reply) (w : World) :
    (onReply r w).requests = w.requests ∧ (onReply r w).pending = w.pending ∧
    (onReply r w).settled = w.settled := by
  cases r with
  | networkFailure => exact ⟨rfl, rfl, rfl⟩
  | invalidJson => exact ⟨rfl, rfl, rfl⟩
  | json v => exact responseHandler_requests v w

theorem domContentLoaded_loader_fields (page : Page) :
    (domContentLoaded page).sat1 = page.sat1 ∧ (domContentLoaded page).sat2 = page.sat2 ∧
    (domContentLoaded page).settled = [] := by
  unfold domContentLoaded
  split
  · exact ⟨rfl, rfl, rfl⟩
  · split
    · exact ⟨rfl, rfl, rfl⟩
    · exact dispatchChange_loader_fields _

theorem domContentLoaded_requests (page : Page) :
    (domContentLoaded page).requests = (domContentLoaded page).pending := by
  cases hp : page.parent with
  | none => simp [domContentLoaded, hp]
  | some v =>
    by_cases hv : v = "" <;> simp [domContentLoaded, hp, hv, dispatchChange, onChange]

theorem reflectsLastHandled_congr (o1 o2 : List Opt) (w u : World)
    (h1 : u.sat1 = w.sat1) (h2 : u.sat2 = w.sat2) (h3 : u.settled = w.settled)
    (h : reflectsLastHandled o1 o2 w) : reflectsLastHandled o1 o2 u := by
  unfold reflectsLastHandled at *
  rw [h1, h2, h3]
  exact h

theorem reflectsLastHandled_present (o1 o2 : List Opt) (w : World)
    (h : reflectsLastHandled o1 o2 w) : ∃ p1 p2, w.sat1 = some p1 ∧ w.sat2 = some p2 := by
  unfold reflectsLastHandled at h
  split at h
  · exact ⟨_, _, h.1, h.2⟩
  · obtain ⟨items, _, h1, h2⟩ := h
    exact ⟨_, _, h1, h2⟩

theorem step_reflectsLastHandled (o1 o2 : List Opt) (w : World) (a : Action)
    (ha : ∀ k r, a = Action.respond k r → wellFormedReply r)
    (h : reflectsLastHandled o1 o2 w) : reflectsLastHandled o1 o2 (step w a) := by
  cases a with
  | change =>
    have hf := dispatchChange_loader_fields w
    exact reflectsLastHandled_congr o1 o2 w _ hf.1 hf.2.1 hf.2.2 h
  | setValue v =>
    simp only [step]
    split
    · exact h
    · exact reflectsLastHandled_congr o1 o2 w _ rfl rfl rfl h
  | advance limit =>
    have hf := advanceFuel_loader_fields (timerFuel w.timers) limit w
    exact reflectsLastHandled_congr o1 o2 w _ hf.1 hf.2.1 hf.2.2.1 h
  | addAlert s => exact reflectsLastHandled_congr o1 o2 w _ rfl rfl rfl h
  | respond k r =>
    cases hk : w.pending[k]? with
    | none =>
      have hs : step w (.respond k r) = w := by simp [step, hk]
      rw [hs]
      exact h
    | some url =>
      have hwf := ha k r rfl
      cases r with
      | networkFailure =>
        rw [step_respond_of_pending w k url _ hk]
        unfold reflectsLastHandled at *
        simpa [onReply, lastHandled] using h
      | invalidJson =>
        rw [step_respond_of_pending w k url _ hk]
        unfold reflectsLastHandled at *
        simpa [onReply, lastHandled] using h
      | json v =>
        obtain ⟨items, rfl, hitems⟩ := hwf
        obtain ⟨p1, p2, hp1, hp2⟩ := reflectsLastHandled_present o1 o2 w h
        rw [step_respond_items w k url items p1 p2 hk hp1 hp2 hitems]
        unfold reflectsLastHandled
        simp [lastHandled]

theorem run_reflectsLastHandled (o1 o2 : List Opt) (acts : List Action) (w : World)
    (ha : wellFormedActs acts)
    (h : reflectsLastHandled o1 o2 w) : reflectsLastHandled o1 o2 (run w acts) := by
  induction acts generalizing w with
  | nil => exact h
  | cons a rest ih =>
    have hrun : run w (a :: rest) = run (step w a) rest := rfl
    rw [hrun]
    apply ih
    · intro k r hr
      exact ha k r (List.mem_cons_of_mem _ hr)
    · apply step_reflectsLastHandled o1 o2 w a _ h
      intro k r hr
      exact ha k r (hr ▸ List.mem_cons_self _ _)

/-! ## Requests and responses in request order -/

theorem step_requests_in_order (w : World) (a : Action)
    (ha : ∀ k r, a = Action.respond k r → k = 0)
    (h : w.requests = (w.settled.map Prod.fst).reverse ++ w.pending) :
    (step w a).requests = ((step w a).settled.map Prod.fst).reverse ++ (step w a).pending := by
  cases a with
  | change =>
    obtain ⟨issued, hr, hp⟩ := dispatchChange_requests w
    have hs := (dispatchChange_loader_fields w).2.2
    have hst : step w .change = dispatchChange w := rfl
    rw [hst, hr, hp, hs, h, List.append_assoc]
  | setValue v =>
    simp only [step]
    split
    · exact h
    · exact h
  | advance limit =>
    obtain ⟨_, _, h3, h4, h5, _⟩ := advanceFuel_loader_fields (timerFuel w.timers) limit w
    have hst : step w (.advance limit) = advanceFuel (timerFuel w.timers) limit w := rfl
    rw [hst, h3, h4, h5]
    exact h
  | addAlert s => exact h
  | respond k r =>
    have hk0 : k = 0 := ha k r rfl
    subst hk0
    cases hk : w.pending[0]? with
    | none =>
      have hs : step w (.respond 0 r) = w := by simp [step, hk]
      rw [hs]
      exact h
    | some url =>
      rw [step_respond_of_pending w 0 url _ hk]
      obtain ⟨h1, h2, h3⟩ := onReply_requests r
        { w with pending := w.pending.eraseIdx 0, settled := (url, r) :: w.settled }
      rw [h1, h2, h3]
      cases hpend : w.pending with
      | nil => simp [hpend] at hk
      | cons x rest =>
        simp only [hpend, List.getElem?_cons_zero, Option.some.injEq] at hk
        subst hk
        simp [h, hpend]

theorem run_requests_in_order (acts : List Action) (w : World)
    (ha : inRequestOrder acts)
    (h : w.requests = (w.settled.map Prod.fst).reverse ++ w.pending) :
    (run w acts).requests =
      ((run w acts).settled.map Prod.fst).reverse ++ (run w acts).pending := by
  induction acts generalizing w with
  | nil => exact h
  | cons a rest ih =>
    have hrun : run w (a :: rest) = run (step w a) rest := rfl
    rw [hrun]
    apply ih
    · intro k r hr
      exact ha k r (List.mem_cons_of_mem _ hr)
    · apply step_requests_in_order w a _ h
      intro k r hr
      exact ha k r (hr ▸ List.mem_cons_self _ _)

theorem reflectsAnsweredParent_of_invariants (o1 o2 : List Opt) (w : World)
    (hlast : reflectsLastHandled o1 o2 w)
    (hreq : w.requests = (w.settled.map Prod.fst).reverse ++ w.pending)
    (hpend : w.pending = []) : reflectsAnsweredParent w := by
  intro v _ hv
  rw [hreq, hpend, List.append_nil, List.getLast?_reverse] at hv
  cases hs : w.settled with
  | nil => simp [hs] at hv
  | cons e rest =>
    obtain ⟨u, r⟩ := e
    simp only [hs, List.map_cons, List.head?_cons, Option.some.injEq] at hv
    subst hv
    refine ⟨r, by simp [lastReplyFor], ?_⟩
    cases r with
    | networkFailure => exact Or.inl rfl
    | invalidJson => exact Or.inr (Or.inl rfl)
    | json body =>
      unfold reflectsLastHandled at hlast
      simp only [hs, lastHandled] at hlast
      obtain ⟨items, rfl, h1, h2⟩ := hlast
      exact Or.inr (Or.inr ⟨items, rfl, h1, h2⟩)

/-! ## The claim on the invariant -/

/-- C9, as stated, fails.  After the race (constellation 5 selected, then 8,
the response for 8 arriving first) no fetch is pending, the parent shows
constellation 8 and the request for 8 was answered with `otherReply`, but both
dependent selectors hold the list built from the response for constellation 5.
And with both responses arriving in request order, after the parent's value is
set back to 5 without a change event no fetch is pending, the request for 5
was answered with `specReply`, but both selectors hold the list built from the
response for constellation 8. -/
theorem C9_counterexample :
    (run (domContentLoaded blankForm) raceActs).pending = [] ∧
    (run (domContentLoaded blankForm) raceActs).parent = some "8" ∧
    (run (domContentLoaded blankForm) raceActs).sat1 = some (specOptions specReply) ∧
    specOptions specReply ≠ specOptions otherReply ∧
    ¬ reflectsCurrentParent (run (domContentLoaded blankForm) raceActs) ∧
    (run (domContentLoaded blankForm) staleEditActs).pending = [] ∧
    (run (domContentLoaded blankForm) staleEditActs).parent = some "5" ∧
    (run (domContentLoaded blankForm) staleEditActs).sat1 = some (specOptions otherReply) ∧
    ¬ reflectsCurrentParent (run (domContentLoaded blankForm) staleEditActs) := by
  refine ⟨by decide, by decide, by decide, by decide, ?_, by decide, by decide, by decide, ?_⟩
  · intro h
    obtain ⟨items, hreply, hsat, _⟩ := h "8" (by decide)
    have hlast : lastReplyFor (fetchUrl "8") (run (domContentLoaded blankForm) raceActs).settled =
        some (.json (.arr otherReply)) := by
      rfl
    rw [hlast] at hreply
    have hitems : otherReply = items := by
      injection hreply with h1
      injection h1 with h2
      injection h2
    subst hitems
    have hsat1 : (run (domContentLoaded blankForm) raceActs).sat1 =
        some (specOptions specReply) := by
      decide
    rw [hsat1] at hsat
    exact absurd hsat (by decide)
  · intro h
    obtain ⟨items, hreply, hsat, _⟩ := h "5" (by decide)
    have hlast : lastReplyFor (fetchUrl "5")
        (run (domContentLoaded blankForm) staleEditActs).settled =
        some (.json (.arr specReply)) := by
      rfl
    rw [hlast] at hreply
    have hitems : specReply = items := by
      injection hreply with h1
      injection h1 with h2
      injection h2
    subst hitems
    have hsat1 : (run (domContentLoaded blankForm) staleEditActs).sat1 =
        some (specOptions otherReply) := by
      decide
    rw [hsat1] at hsat
    exact absurd hsat (by decide)

/-- C9, amended: on a page with both dependent selectors, along every run of
change events, parent value edits, response arrivals (each a failure or a JSON
array of remote items), passing time and added alerts: (a) both dependent
selectors hold the list built from the most recently handled response,
whichever request it answered, and before any response has been handled the
option lists present at load; (b) when responses arrive in request order and
no fetch is pending, if the most recent request is the one for the parent's
current value then that request has been answered and, unless it failed, both
selectors hold the list built from the response to it. -/
theorem C9_selectors_reflect_last_handled (page : Page) (o1 o2 : List Opt)
    (acts : List Action)
    (h1 : page.sat1 = some o1) (h2 : page.sat2 = some o2) (hacts : wellFormedActs acts) :
    reflectsLastHandled o1 o2 (run (domContentLoaded page) acts) ∧
    (inRequestOrder acts → (run (domContentLoaded page) acts).pending = [] →
      reflectsAnsweredParent (run (domContentLoaded page) acts)) := by
  have hlast : reflectsLastHandled o1 o2 (run (domContentLoaded page) acts) := by
    apply run_reflectsLastHandled o1 o2 acts _ hacts
    have hf := domContentLoaded_loader_fields page
    unfold reflectsLastHandled
    rw [hf.2.2, hf.1, hf.2.1]
    exact ⟨h1, h2⟩
  refine ⟨hlast, ?_⟩
  intro horder hpend
  apply reflectsAnsweredParent_of_invariants o1 o2 _ hlast _ hpend
  apply run_requests_in_order acts _ horder
  rw [(domContentLoaded_loader_fields page).2.2, domContentLoaded_requests page]
  rfl

theorem C9_witness :
    blankForm.sat1 = some [⟨"7", "卫星 old"⟩] ∧ blankForm.sat2 = some [] ∧
    wellFormedActs raceActs ∧ wellFormedActs orderedActs ∧ inRequestOrder orderedActs ∧
    (run (domContentLoaded blankForm) orderedActs).pending = [] ∧
    reflectsLastHandled [⟨"7", "卫星 old"⟩] [] (run (domContentLoaded blankForm) raceActs) ∧
    reflectsAnsweredParent (run (domContentLoaded blankForm) orderedActs) :=
  have hrace : wellFormedActs raceActs := by
    intro k r hr
    simp [raceActs, selectEach] at hr
    rcases hr with ⟨_, rfl⟩ | ⟨_, rfl⟩
    · exact ⟨otherReply, rfl, by decide⟩
    · exact ⟨specReply, rfl, by decide⟩
  have hwf : wellFormedActs orderedActs := by
    intro k r hr
    simp [orderedActs, selectEach] at hr
    rcases hr with ⟨_, rfl⟩ | ⟨_, rfl⟩
    · exact ⟨specReply, rfl, by decide⟩
    · exact ⟨otherReply, rfl, by decide⟩
  have horder : inRequestOrder orderedActs := by
    intro k r hr
    simp [orderedActs, selectEach] at hr
    rcases hr with ⟨hk, _⟩ | ⟨hk, _⟩ <;> exact hk
  have hpend : (run (domContentLoaded blankForm) orderedActs).pending = [] := by decide
  ⟨rfl, rfl, hrace, hwf, horder, hpend,
    (C9_selectors_reflect_last_handled blankForm [⟨"7", "卫星 old"⟩] [] raceActs
      rfl rfl hrace).1,
    (C9_selectors_reflect_last_handled blankForm [⟨"7", "卫星 old"⟩] [] orderedActs
      rfl rfl hwf).2 horder hpend⟩

/-! ## The alert timers under the virtual clock -/

theorem popTimer_eq_none (l : List Timer) (h : popTimer l = none) : l = [] := by
  cases l with
  | nil => rfl
  | cons t rest =>
    unfold popTimer at h
    split at h
    · exact absurd h (by simp)
    · split at h <;> exact absurd h (by simp)

theorem popTimer_mem (l : List Timer) (t : Timer) (rest : List Timer)
    (h : popTimer l = some (t, rest)) : t ∈ l := by
  induction l generalizing t rest with
  | nil => simp [popTimer] at h
  | cons x xs ih =>
    unfold popTimer at h
    split at h
    · simp at h
      simp [h.1]
    · rename_i u others hu
      split at h
      · simp at h
        simp [h.1]
      · simp at h
        have := ih u others hu
        rw [← h.1]
        exact List.mem_cons_of_mem _ this

theorem popTimer_head (t : Timer) (rest : List Timer) (h : ∀ u ∈ rest, t.due ≤ u.due) :
    popTimer (t :: rest) = some (t, rest) := by
  unfold popTimer
  split
  · rename_i hnone
    rw [popTimer_eq_none rest hnone]
  · rename_i u others hu
    rw [if_pos (h u (popTimer_mem rest u others hu))]

theorem advanceFuel_idle (fuel limit : Nat) (w : World)
    (h : ∀ t ∈ w.timers, limit < t.due) :
    advanceFuel fuel limit w = { w with now := max w.now limit } := by
  cases fuel with
  | zero => rfl
  | succ n =>
    unfold advanceFuel
    have htick : tick limit w = none := by
      unfold tick
      split
      · rfl
      · rename_i t rest ht
        have := h t (popTimer_mem _ t rest ht)
        rw [if_neg (by omega)]
    rw [htick]

theorem updateAt_length_append {α : Type} (f : α → α) (pre : List α) (a : α) (post : List α) :
    updateAt f pre.length (pre ++ a :: post) = pre ++ f a :: post := by
  induction pre with
  | nil => rfl
  | cons x xs ih => simp [updateAt, ih]

theorem foldl_updateAt_range (f : AlertNode → AlertNode) (mid pre post : List AlertNode) :
    (List.range' pre.length mid.length).foldl (fun al i => updateAt f i al) (pre ++ mid ++ post)
      = pre ++ mid.map f ++ post := by
  induction mid generalizing pre with
  | nil => simp
  | cons a rest ih =>
    have h1 : (pre ++ a :: rest ++ post) = pre ++ a :: (rest ++ post) := by simp
    have h2 := ih (pre ++ [f a])
    simp only [List.length_append, List.length_singleton, List.append_assoc,
      List.singleton_append] at h2
    simp only [List.length_cons, List.range'_succ, List.foldl_cons, h1,
      updateAt_length_append, List.map_cons]
    simpa using h2

theorem advanceFuel_succ_of_tick (fuel limit : Nat) (w w1 : World)
    (h : tick limit w = some w1) :
    advanceFuel (fuel + 1) limit w = advanceFuel fuel limit w1 := by
  simp [advanceFuel, h]

theorem advanceFuel_fades (limit : Nat) (hl : 3000 ≤ limit) (fs ds : List Nat) (w : World)
    (fuel : Nat) (ht : w.timers = fadeTimers fs ++ detachTimers ds) (hn : w.now ≤ 3000) :
    advanceFuel (fs.length + fuel) limit w =
      advanceFuel fuel limit
        { w with now := if fs = [] then w.now else 3000,
                 alerts := fs.foldl (fun al i => updateAt fadeNode i al) w.alerts,
                 timers := detachTimers (ds ++ fs),
                 trace := w.trace ++ fs.map (fun i => (3000, AlertEvent.opacitySet i)) } := by
  induction fs generalizing w ds with
  | nil =>
    have ht2 : detachTimers ds = w.timers := by simp [ht, fadeTimers]
    simp [ht2]
  | cons i rest ih =>
    have hpop : popTimer w.timers =
        some (⟨3000, .fade i⟩, fadeTimers rest ++ detachTimers ds) := by
      have hlist : fadeTimers (i :: rest) ++ detachTimers ds =
          ⟨3000, .fade i⟩ :: (fadeTimers rest ++ detachTimers ds) := rfl
      rw [ht, hlist]
      apply popTimer_head
      intro u hu
      simp only [fadeTimers, detachTimers, List.mem_append, List.mem_map] at hu
      rcases hu with ⟨_, _, rfl⟩ | ⟨_, _, rfl⟩ <;> simp
    have htick : tick limit w =
        some (runTask (.fade i)
          { w with now := 3000, timers := fadeTimers rest ++ detachTimers ds }) := by
      unfold tick
      rw [hpop]
      simp [hl, max_eq_right hn]
    have hfuel : (i :: rest).length + fuel = (rest.length + fuel) + 1 := by
      simp only [List.length_cons]
      omega
    rw [hfuel, advanceFuel_succ_of_tick _ _ _ _ htick]
    rw [ih (ds ++ [i]) _ (by simp [runTask, detachTimers]) (by simp [runTask])]
    congr 1
    simp [runTask]

theorem advanceFuel_detaches (limit : Nat) (hl : 3500 ≤ limit) (ds : List Nat) (w : World)
    (fuel : Nat) (ht : w.timers = detachTimers ds) (hn : w.now ≤ 3500) :
    advanceFuel (ds.length + fuel) limit w =
      advanceFuel fuel limit
        { w with now := if ds = [] then w.now else 3500,
                 alerts := ds.foldl (fun al i => updateAt detachNode i al) w.alerts,
                 timers := [],
                 trace := w.trace ++ ds.map (fun i => (3500, AlertEvent.removed i)) } := by
  induction ds generalizing w with
  | nil =>
    have ht2 : [] = w.timers := by simp [ht, detachTimers]
    simp [ht2]
  | cons i rest ih =>
    have hpop : popTimer w.timers = some (⟨3500, .detach i⟩, detachTimers rest) := by
      have hlist : detachTimers (i :: rest) = ⟨3500, .detach i⟩ :: detachTimers rest := rfl
      rw [ht, hlist]
      apply popTimer_head
      intro u hu
      simp only [detachTimers, List.mem_map] at hu
      rcases hu with ⟨_, _, rfl⟩
      simp
    have htick : tick limit w =
        some (runTask (.detach i) { w with now := 3500, timers := detachTimers rest }) := by
      unfold tick
      rw [hpop]
      simp [hl, max_eq_right hn]
    have hfuel : (i :: rest).length + fuel = (rest.length + fuel) + 1 := by
      simp only [List.length_cons]
      omega
    rw [hfuel, advanceFuel_succ_of_tick _ _ _ _ htick]
    rw [ih _ (by simp [runTask]) (by simp [runTask])]
    congr 1
    simp [runTask]

theorem timerFuel_fadeTimers (fs : List Nat) : timerFuel (fadeTimers fs) = fs.length + fs.length := by
  induction fs with
  | nil => rfl
  | cons i rest ih =>
    simp only [fadeTimers, List.map_cons, timerFuel, List.length_cons] at *
    omega

theorem timerFuel_detachTimers (ds : List Nat) : timerFuel (detachTimers ds) = ds.length + 0 := by
  induction ds with
  | nil => rfl
  | cons i rest ih =>
    simp only [detachTimers, List.map_cons, timerFuel, List.length_cons] at *
    omega

theorem run_addAlerts (extra : List AlertStyle) (w : World) :
    run w (extra.map Action.addAlert) =
      { w with alerts := w.alerts ++ extra.map (fun s => ⟨s, true⟩) } := by
  induction extra generalizing w with
  | nil => simp [run]
  | cons s rest ih =>
    have hrun : run w ((s :: rest).map Action.addAlert) =
        run (step w (.addAlert s)) (rest.map Action.addAlert) := rfl
    rw [hrun, ih]
    simp [step]

theorem run_append (w : World) (xs ys : List Action) :
    run w (xs ++ ys) = run (run w xs) ys := by
  simp [run]

theorem domContentLoaded_alert_fields (page : Page) :
    (domContentLoaded page).now = 0 ∧
    (domContentLoaded page).alerts = page.alerts.map (fun s => ⟨s, true⟩) ∧
    (domContentLoaded page).timers = fadeTimers (List.range page.alerts.length) ∧
    (domContentLoaded page).trace = [] := by
  cases hp : page.parent with
  | none => simp [domContentLoaded, hp, fadeTimers]
  | some v =>
    by_cases hv : v = "" <;>
      simp [domContentLoaded, hp, hv, dispatchChange, onChange, fadeTimers]

theorem run_untilFade (w : World) (n : Nat) (x1 : List AlertStyle) (ta : Nat)
    (hnow : w.now = 0) (htimers : w.timers = fadeTimers (List.range n)) (ha : ta < 3000) :
    run w (untilFade x1 ta) =
      { w with now := ta, alerts := w.alerts ++ x1.map (fun s => ⟨s, true⟩) } := by
  unfold untilFade
  rw [run_append, run_addAlerts]
  have hstep : ∀ u : World, run u [Action.advance ta] = advance ta u := fun _ => rfl
  rw [hstep]
  unfold advance
  rw [advanceFuel_idle]
  · simp [hnow]
  · intro t ht
    simp only [htimers, fadeTimers, List.mem_map] at ht
    rcases ht with ⟨_, _, rfl⟩
    exact ha

theorem run_untilRemoval (w : World) (a0 : List AlertNode) (x1 x2 : List AlertStyle)
    (ta tb : Nat)
    (hnow : w.now = 0) (htimers : w.timers = fadeTimers (List.range a0.length))
    (halerts : w.alerts = a0)
    (ha : ta < 3000) (hb : 3000 ≤ tb) (hb2 : tb < 3500) :
    run w (untilRemoval x1 x2 ta tb) =
      { w with now := tb,
               alerts := a0.map fadeNode ++ (x1 ++ x2).map (fun s => ⟨s, true⟩),
               timers := detachTimers (List.range a0.length),
               trace := w.trace ++
                 (List.range a0.length).map (fun i => (3000, AlertEvent.opacitySet i)) } := by
  unfold untilRemoval
  rw [run_append, run_untilFade w a0.length x1 ta hnow htimers ha, run_append, run_addAlerts]
  have hstep : ∀ u : World, run u [Action.advance tb] = advance tb u := fun _ => rfl
  rw [hstep]
  unfold advance
  simp only [htimers, timerFuel_fadeTimers, List.length_range]
  have hphase := advanceFuel_fades tb hb (List.range a0.length) []
    { w with now := ta,
             alerts := w.alerts ++ x1.map (fun s => (⟨s, true⟩ : AlertNode)) ++
               x2.map (fun s => ⟨s, true⟩),
             timers := fadeTimers (List.range a0.length) }
    a0.length (by simp [detachTimers]) (by simp; omega)
  simp only [List.length_range] at hphase
  rw [hphase, advanceFuel_idle]
  · have hfold := foldl_updateAt_range fadeNode a0 []
      (x1.map (fun s => (⟨s, true⟩ : AlertNode)) ++ x2.map (fun s => ⟨s, true⟩))
    simp only [List.length_nil, List.nil_append] at hfold
    simp only [halerts, List.range_eq_range', List.append_assoc, hfold, List.nil_append,
      List.map_append]
    congr 1
    split <;> omega
  · intro t ht
    simp only [detachTimers, List.mem_map] at ht
    rcases ht with ⟨_, _, rfl⟩
    exact hb2

theorem run_afterRemoval (w : World) (a0 : List AlertNode) (x1 x2 x3 : List AlertStyle)
    (ta tb tc : Nat)
    (hnow : w.now = 0) (htimers : w.timers = fadeTimers (List.range a0.length))
    (halerts : w.alerts = a0)
    (ha : ta < 3000) (hb : 3000 ≤ tb) (hb2 : tb < 3500) (hc : 3500 ≤ tc) :
    run w (afterRemoval x1 x2 x3 ta tb tc) =
      { w with now := tc,
               alerts := (a0.map fadeNode).map detachNode ++
                 (x1 ++ x2 ++ x3).map (fun s => ⟨s, true⟩),
               timers := [],
               trace := w.trace ++
                 (List.range a0.length).map (fun i => (3000, AlertEvent.opacitySet i)) ++
                 (List.range a0.length).map (fun i => (3500, AlertEvent.removed i)) } := by
  unfold afterRemoval
  rw [run_append, run_untilRemoval w a0 x1 x2 ta tb hnow htimers halerts ha hb hb2, run_append,
    run_addAlerts]
  have hstep : ∀ u : World, run u [Action.advance tc] = advance tc u := fun _ => rfl
  rw [hstep]
  unfold advance
  simp only [timerFuel_detachTimers, List.length_range]
  have hphase := advanceFuel_detaches tc hc (List.range a0.length)
    { w with now := tb,
             alerts := a0.map fadeNode ++ (x1 ++ x2).map (fun s => (⟨s, true⟩ : AlertNode)) ++
               x3.map (fun s => ⟨s, true⟩),
             timers := detachTimers (List.range a0.length),
             trace := w.trace ++
               (List.range a0.length).map (fun i => (3000, AlertEvent.opacitySet i)) }
    0 rfl (by simp; omega)
  simp only [List.length_range] at hphase
  rw [hphase]
  have hfold := foldl_updateAt_range detachNode (a0.map fadeNode) []
    ((x1 ++ x2).map (fun s => (⟨s, true⟩ : AlertNode)) ++ x3.map (fun s => ⟨s, true⟩))
  simp only [List.length_nil, List.nil_append, List.length_map, List.map_append,
    List.append_assoc] at hfold
  simp only [advanceFuel, List.range_eq_range', List.map_append, List.append_assoc, hfold]
  congr 1
  split <;> omega

theorem filter_range_eq (n i : Nat) (h : i < n) :
    (List.range n).filter (fun j => j == i) = [i] := by
  induction n with
  | zero => omega
  | succ m ih =>
    rw [List.range_succ, List.filter_append]
    by_cases hm : i < m
    · have hne : ¬ m = i := by omega
      simp [ih hm, hne]
    · have hi : i = m := by omega
      subst hi
      have hnone : (List.range i).filter (fun j => j == i) = [] := by
        simp only [List.filter_eq_nil_iff, List.mem_range]
        intro a ha
        simp
        omega
      simp [hnone]

theorem popTimer_due_le (l : List Timer) (t : Timer) (rest : List Timer)
    (h : popTimer l = some (t, rest)) : ∀ u ∈ l, t.due ≤ u.due := by
  induction l generalizing t rest with
  | nil => simp [popTimer] at h
  | cons x xs ih =>
    unfold popTimer at h
    split at h
    · rename_i hnone
      simp at h
      rw [popTimer_eq_none xs hnone, ← h.1]
      simp
    · rename_i v others hv
      have hmin := ih v others hv
      split at h
      · rename_i hle
        simp at h
        rw [← h.1]
        intro u hu
        rcases List.mem_cons.mp hu with rfl | hmem
        · exact Nat.le_refl _
        · exact Nat.le_trans hle (hmin u hmem)
      · rename_i hlt
        simp at h
        rw [← h.1]
        intro u hu
        rcases List.mem_cons.mp hu with rfl | hmem
        · omega
        · exact hmin u hmem

theorem timerFuel_cons (x : Timer) (ys : List Timer) :
    timerFuel (x :: ys) = timerFuel [x] + timerFuel ys := by
  obtain ⟨d, k⟩ := x
  cases k <;> simp [timerFuel]

theorem timerFuel_append (ys zs : List Timer) :
    timerFuel (ys ++ zs) = timerFuel ys + timerFuel zs := by
  induction ys with
  | nil => simp [timerFuel]
  | cons y more ih =>
    rw [List.cons_append, timerFuel_cons y (more ++ zs), timerFuel_cons y more, ih]
    omega

theorem popTimer_fuel (l : List Timer) (t : Timer) (rest : List Timer)
    (h : popTimer l = some (t, rest)) : timerFuel l = timerFuel [t] + timerFuel rest := by
  induction l generalizing t rest with
  | nil => simp [popTimer] at h
  | cons x xs ih =>
    have hx : ∀ ys, timerFuel (x :: ys) = timerFuel [x] + timerFuel ys := timerFuel_cons x
    unfold popTimer at h
    split at h
    · rename_i hnone
      simp at h
      obtain ⟨h1, h2⟩ := h
      subst h1 h2
      rw [popTimer_eq_none xs hnone]
      rfl
    · rename_i v others hv
      have hrec := ih v others hv
      split at h
      · simp at h
        rw [← h.1, ← h.2]
        exact hx xs
      · simp at h
        rw [← h.1, ← h.2, hx xs, hx others, hrec]
        omega

theorem tick_fuel (limit : Nat) (w w1 : World) (h : tick limit w = some w1) :
    timerFuel w1.timers + 1 = timerFuel w.timers := by
  unfold tick at h
  split at h
  · exact absurd h (by simp)
  · rename_i t rest hpop
    split at h
    · cases h
      rw [popTimer_fuel _ t rest hpop]
      obtain ⟨d, k⟩ := t
      cases k
      · simp only [runTask, timerFuel_append, timerFuel]
        omega
      · simp only [runTask, timerFuel]
        omega
    · exact absurd h (by simp)

theorem tick_eq_none (limit : Nat) (w : World) (h : tick limit w = none) :
    ∀ t ∈ w.timers, limit < t.due := by
  unfold tick at h
  split at h
  · rename_i hnone
    rw [popTimer_eq_none _ hnone]
    simp
  · rename_i t rest hpop
    split at h
    · exact absurd h (by simp)
    · rename_i hgt
      intro u hu
      have := popTimer_due_le _ t rest hpop u hu
      omega

theorem advanceFuel_leaves_no_due_timer (fuel limit : Nat) (w : World)
    (h : timerFuel w.timers ≤ fuel) :
    ∀ t ∈ (advanceFuel fuel limit w).timers, limit < t.due := by
  induction fuel generalizing w with
  | zero =>
    have hnil : w.timers = [] := by
      cases hw : w.timers with
      | nil => rfl
      | cons x xs =>
        rw [hw] at h
        obtain ⟨d, k⟩ := x
        cases k <;> simp [timerFuel] at h
    intro t ht
    simp [advanceFuel, hnil] at ht
  | succ n ih =>
    unfold advanceFuel
    cases htick : tick limit w with
    | none => exact tick_eq_none limit w htick
    | some w1 =>
      have := tick_fuel limit w w1 htick
      exact ih w1 (by omega)

/-- The clock never stops short: after `advance limit` no timer due by `limit` is left. -/
theorem advance_leaves_no_due_timer (limit : Nat) (w : World) :
    ∀ t ∈ (advance limit w).timers, limit < t.due :=
  advanceFuel_leaves_no_due_timer _ limit w (Nat.le_refl _)

/-! ## The claim on the alert dismisser -/

/-- C8: under the virtual clock, with the alerts present at page-ready
numbered `0..n-1` and with further alert elements added at arbitrary later
moments: up to any time before 3000ms no callback has run and no alert has
changed; from 3000ms on every alert present at load has had its opacity set to
'0' (and its transition set), at time 3000 exactly; from 3500ms on each of them
has been removed from the document, at time 3500 exactly, which is 500ms after
its opacity was set.  The log then holds, for each alert present at load,
exactly one opacity write and exactly one removal, the number of removals is
the number of alerts matched at load (none for an empty set), no timer is
left, and the elements added after load are untouched. -/
theorem C8_alert_timeline (page : Page) (x1 x2 x3 : List AlertStyle) (ta tb tc : Nat)
    (ha : ta < 3000) (hb : 3000 ≤ tb) (hb2 : tb < 3500) (hc : 3500 ≤ tc) :
    (run (domContentLoaded page) (untilFade x1 ta)).trace = [] ∧
    (run (domContentLoaded page) (untilFade x1 ta)).alerts =
      page.alerts.map (fun s => ⟨s, true⟩) ++ x1.map (fun s => ⟨s, true⟩) ∧
    (run (domContentLoaded page) (untilRemoval x1 x2 ta tb)).trace =
      (List.range page.alerts.length).map (fun i => (3000, AlertEvent.opacitySet i)) ∧
    (run (domContentLoaded page) (untilRemoval x1 x2 ta tb)).alerts =
      page.alerts.map (fun _ => ⟨⟨"0", "opacity 0.5s ease"⟩, true⟩) ++
        (x1 ++ x2).map (fun s => ⟨s, true⟩) ∧
    (run (domContentLoaded page) (afterRemoval x1 x2 x3 ta tb tc)).trace =
      (List.range page.alerts.length).map (fun i => (3000, AlertEvent.opacitySet i)) ++
      (List.range page.alerts.length).map (fun i => (3500, AlertEvent.removed i)) ∧
    (run (domContentLoaded page) (afterRemoval x1 x2 x3 ta tb tc)).alerts =
      page.alerts.map (fun _ => ⟨⟨"0", "opacity 0.5s ease"⟩, false⟩) ++
        (x1 ++ x2 ++ x3).map (fun s => ⟨s, true⟩) ∧
    (run (domContentLoaded page) (afterRemoval x1 x2 x3 ta tb tc)).timers = [] ∧
    ((run (domContentLoaded page) (afterRemoval x1 x2 x3 ta tb tc)).trace.filter
      (fun e => isRemoval e.2)).length = page.alerts.length ∧
    (∀ i, i < page.alerts.length →
      (run (domContentLoaded page) (afterRemoval x1 x2 x3 ta tb tc)).trace.filter
        (fun e => eventIndex e.2 == i) =
        [(3000, AlertEvent.opacitySet i), (3500, AlertEvent.removed i)]) := by
  obtain ⟨hnow, halerts, htimers, htrace⟩ := domContentLoaded_alert_fields page
  have hlen : (page.alerts.map (fun s => (⟨s, true⟩ : AlertNode))).length = page.alerts.length :=
    List.length_map _ _
  have htimers2 : (domContentLoaded page).timers =
      fadeTimers (List.range (page.alerts.map (fun s => (⟨s, true⟩ : AlertNode))).length) := by
    rw [hlen]
    exact htimers
  rw [run_untilFade _ page.alerts.length x1 ta hnow htimers ha,
    run_untilRemoval _ _ x1 x2 ta tb hnow htimers2 halerts ha hb hb2,
    run_afterRemoval _ _ x1 x2 x3 ta tb tc hnow htimers2 halerts ha hb hb2 hc]
  refine ⟨htrace, by simp [halerts], by simp [htrace], by rw [List.map_map]; rfl,
    by simp [htrace], by rw [List.map_map, List.map_map]; rfl, rfl, ?_, ?_⟩
  · simp only [htrace, hlen, List.nil_append]
    rw [List.filter_append, List.filter_map, List.filter_map]
    have h1 : ((fun e : Nat × AlertEvent => isRemoval e.2) ∘
        fun i => (3000, AlertEvent.opacitySet i)) = fun _ => false := rfl
    have h2 : ((fun e : Nat × AlertEvent => isRemoval e.2) ∘
        fun i => (3500, AlertEvent.removed i)) = fun _ => true := rfl
    rw [h1, h2]
    simp
  · intro i hi
    simp only [htrace, hlen, List.nil_append]
    rw [List.filter_append, List.filter_map, List.filter_map]
    have h1 : ((fun e : Nat × AlertEvent => eventIndex e.2 == i) ∘
        fun j => (3000, AlertEvent.opacitySet j)) = fun j => j == i := rfl
    have h2 : ((fun e : Nat × AlertEvent => eventIndex e.2 == i) ∘
        fun j => (3500, AlertEvent.removed j)) = fun j => j == i := rfl
    rw [h1, h2, filter_range_eq _ i hi]
    rfl

theorem C8_witness :
    (run (domContentLoaded alertPage) (untilFade [] 2999)).trace = [] ∧
    (run (domContentLoaded alertPage) (untilRemoval [] [⟨"1", ""⟩] 2999 3000)).trace =
      [(3000, .opacitySet 0), (3000, .opacitySet 1)] ∧
    (run (domContentLoaded alertPage) (afterRemoval [] [⟨"1", ""⟩] [] 2999 3000 3500)).trace =
      [(3000, .opacitySet 0), (3000, .opacitySet 1), (3500, .removed 0), (3500, .removed 1)] ∧
    (run (domContentLoaded alertPage) (afterRemoval [] [⟨"1", ""⟩] [] 2999 3000 3500)).alerts =
      [⟨⟨"0", "opacity 0.5s ease"⟩, false⟩, ⟨⟨"0", "opacity 0.5s ease"⟩, false⟩,
       ⟨⟨"1", ""⟩, true⟩] ∧
    (run (domContentLoaded alertPage) (afterRemoval [] [⟨"1", ""⟩] [] 2999 3000 3500)).trace.filter
      (fun e => eventIndex e.2 == 1) = [(3000, .opacitySet 1), (3500, .removed 1)] :=
  have h := C8_alert_timeline alertPage [] [⟨"1", ""⟩] [] 2999 3000 3500
    (by decide) (by decide) (by decide) (by decide)
  ⟨h.1, h.2.2.1, h.2.2.2.2.1, h.2.2.2.2.2.1, h.2.2.2.2.2.2.2.2 1 (by decide)⟩

/-! ## Missing elements that the script does guard -/

/-- Without `#constellation_id` the script registers no listener and issues no
fetch, and a change event has no effect. -/
theorem absent_parent_registers_nothing (page : Page) (hp : page.parent = none) :
    (domContentLoaded page).listening = false ∧
    (domContentLoaded page).requests = [] ∧
    step (domContentLoaded page) .change = domContentLoaded page := by
  simp [domContentLoaded, hp, step, dispatchChange]

/-- Without `.alert` elements no timer is scheduled, and passing time changes
nothing but the clock. -/
theorem absent_alerts_schedule_nothing (page : Page) (ha : page.alerts = []) (limit : Nat) :
    (domContentLoaded page).timers = [] ∧
    advance limit (domContentLoaded page) = { domContentLoaded page with now := limit } := by
  obtain ⟨hnow, _, htimers, _⟩ := domContentLoaded_alert_fields page
  have hnil : (domContentLoaded page).timers = [] := by
    rw [htimers, ha]
    rfl
  refine ⟨hnil, ?_⟩
  unfold advance
  rw [advanceFuel_idle _ _ _ (by rw [hnil]; intro t ht; cases ht), hnow]
  simp

end Plotinus
